import Mathlib

/-!
Verification development for the MountLink clipboard-sync GNOME extension.

The definitions below are a shallow embedding of the program:
* `ClipboardEntry` and its operations embed `src/registry.js` (class
  `ClipboardEntry`): mimetype classification, the decoded string value,
  the GLib byte hash (djb2 with 32-bit wrap, as in `g_bytes_hash`), and
  content equality.
* `Registry.write` / `Registry.read` embed the persisted-index logic of
  `src/registry.js` (class `Registry`), with the on-disk state (index file
  plus content-addressed blob files) made explicit as a `DiskState`.
* `SyncState` / `syncStep` embed the D-Bus connection state machine of
  `src/sync.js` (class `MountLinkSync`); asynchronous bus callbacks are
  modelled as explicit operations, and externally visible actions
  (state-changed emissions, outbound bus calls, inbound deliveries) are
  returned as an effect list.
* `CoordState` / `coordStep` embed the coordinator glue of
  `src/extension.js` (class `ClipboardIndicator`): the history list,
  the loop-prevention suppression value `#lastReceivedHash`, and the
  clipboard-change refresh.

Bytes are modelled as `List Nat` (byte values); `TextDecoder`/`TextEncoder`
are modelled by an explicit UTF-8 codec; machine arithmetic that wraps
(the GLib hash) is taken modulo `2 ^ 32` explicitly.
-/

/-- Length of the base64 encoding of `n` raw bytes, as produced by
`GLib.base64_encode` (no line breaks): `4 * ceil(n / 3)`. -/
def b64Len (n : Nat) : Nat := 4 * ((n + 2) / 3)

/-- `MAX_SYNC_SIZE` from `src/sync.js` line 29: `14 * 1024 * 1024`. -/
def MAX_SYNC_SIZE : Nat := 14 * 1024 * 1024

/-- Model of `GLib.Bytes.hash` (`g_bytes_hash`): djb2 over the bytes,
`h := h * 33 + b` starting from `5381`, wrapping as an unsigned 32-bit
integer. -/
def hashBytes (l : List Nat) : Nat :=
  l.foldl (fun h b => (h * 33 + b) % 4294967296) 5381

/-- The U+FFFD replacement character emitted by `TextDecoder` for
malformed input. -/
def replacementChar : Char := Char.ofNat 0xFFFD

/-- Whether a byte is a UTF-8 continuation byte (`10xxxxxx`). -/
def isContByte (b : Nat) : Bool := 0x80 ≤ b && b ≤ 0xBF

/-- Model of `new TextDecoder().decode(bytes)`: UTF-8 decoding with
replacement of malformed bytes.  The first argument is fuel; since every
step consumes at least one byte, fuel equal to the byte count makes the
function total. -/
def utf8DecodeAux : Nat → List Nat → List Char
  | 0, _ => []
  | _, [] => []
  | fuel + 1, b :: rest =>
    if b < 0x80 then
      Char.ofNat b :: utf8DecodeAux fuel rest
    else if 0xC2 ≤ b && b ≤ 0xDF then
      match rest with
      | b1 :: rest1 =>
        if isContByte b1 then
          Char.ofNat ((b - 0xC0) * 64 + (b1 - 0x80)) :: utf8DecodeAux fuel rest1
        else replacementChar :: utf8DecodeAux fuel rest
      | [] => [replacementChar]
    else if 0xE0 ≤ b && b ≤ 0xEF then
      match rest with
      | b1 :: b2 :: rest2 =>
        if isContByte b1 && isContByte b2 &&
            (b != 0xE0 || 0xA0 ≤ b1) && (b != 0xED || b1 ≤ 0x9F) then
          Char.ofNat ((b - 0xE0) * 4096 + (b1 - 0x80) * 64 + (b2 - 0x80)) ::
            utf8DecodeAux fuel rest2
        else replacementChar :: utf8DecodeAux fuel rest
      | _ => replacementChar :: utf8DecodeAux fuel rest
    else if 0xF0 ≤ b && b ≤ 0xF4 then
      match rest with
      | b1 :: b2 :: b3 :: rest3 =>
        if isContByte b1 && isContByte b2 && isContByte b3 &&
            (b != 0xF0 || 0x90 ≤ b1) && (b != 0xF4 || b1 ≤ 0x8F) then
          Char.ofNat ((b - 0xF0) * 262144 + (b1 - 0x80) * 4096 +
              (b2 - 0x80) * 64 + (b3 - 0x80)) :: utf8DecodeAux fuel rest3
        else replacementChar :: utf8DecodeAux fuel rest
      | _ => replacementChar :: utf8DecodeAux fuel rest
    else replacementChar :: utf8DecodeAux fuel rest

/-- Model of `new TextDecoder().decode(bytes)` on a byte list. -/
def utf8Decode (l : List Nat) : String := ⟨utf8DecodeAux l.length l⟩

/-- UTF-8 encoding of one character (scalar value), as `TextEncoder` does. -/
def utf8EncodeChar (c : Char) : List Nat :=
  let v := c.toNat
  if v < 0x80 then [v]
  else if v < 0x800 then [0xC0 + v / 64, 0x80 + v % 64]
  else if v < 0x10000 then [0xE0 + v / 4096, 0x80 + v / 64 % 64, 0x80 + v % 64]
  else [0xF0 + v / 262144, 0x80 + v / 4096 % 64, 0x80 + v / 64 % 64, 0x80 + v % 64]

/-- Model of `new TextEncoder().encode(s)`. -/
def utf8Encode (s : String) : List Nat := (s.data.map utf8EncodeChar).flatten

/-- One clipboard snapshot: `class ClipboardEntry` of `src/registry.js`,
a mimetype tag plus its raw bytes. -/
structure ClipboardEntry where
  mimetype : String
  bytes : List Nat
deriving DecidableEq

/-- Whether the first list is a leading run of the second (used to model
the JS `String.prototype.startsWith`). -/
def listLead : List Char → List Char → Bool
  | [], _ => true
  | _ :: _, [] => false
  | p :: ps, c :: cs => (p = c) && listLead ps cs

/-- Model of the JS `s.startsWith(t)`. -/
def strStartsWith (s t : String) : Bool := listLead t.data s.data

/-- `ClipboardEntry.__isText` of `src/registry.js` lines 156-160. -/
def isTextMime (m : String) : Bool :=
  strStartsWith m "text/" || m = "STRING" || m = "UTF8_STRING"

/-- `isText()` of `src/registry.js` line 201. -/
def ClipboardEntry.isText (e : ClipboardEntry) : Bool := isTextMime e.mimetype

/-- `isImage()` of `src/registry.js` line 202. -/
def ClipboardEntry.isImage (e : ClipboardEntry) : Bool :=
  strStartsWith e.mimetype "image/"

/-- `getStringValue()` of `src/registry.js` lines 192-198: an image entry
renders as the placeholder string containing its byte hash, anything else
decodes its bytes as UTF-8. -/
def ClipboardEntry.getStringValue (e : ClipboardEntry) : String :=
  if e.isImage then "[Image " ++ toString (hashBytes e.bytes) ++ "]"
  else utf8Decode e.bytes

/-- `equals(other)` of `src/registry.js` lines 206-213: two image entries
compare by hash and byte length; every other pair compares by string
value. -/
def ClipboardEntry.equals (a b : ClipboardEntry) : Bool :=
  if a.isImage && b.isImage then
    (hashBytes a.bytes == hashBytes b.bytes) && (a.bytes.length == b.bytes.length)
  else a.getStringValue == b.getStringValue

/-! ## Persisted registry (`src/registry.js`, class `Registry`)

The on-disk cache directory is made explicit: `DiskState` carries the
index file (its existence, byte size and parsed JSON array) and the
content-addressed blob files as an association list from filename to
bytes.  Asynchronous file writes are assumed to have completed, matching
the claims' "no intervening external modification" reading. -/

/-- One object of the persisted JSON index array:
`{ "mimetype": ..., "contents": ... }`.  `contents` is `none` when
`Registry.write` stored no `contents` key (an entry that is neither text
nor image), which `JSON.stringify` drops. -/
structure IndexItem where
  mimetype : String
  contents : Option String
deriving DecidableEq

/-- The extension's private cache directory on disk. -/
structure DiskState where
  indexExists : Bool
  indexSize : Nat
  index : List IndexItem
  blobs : List (String × List Nat)
deriving DecidableEq

/-- Association-list lookup for blob files (first match wins, like the
filesystem: at most one file per name). -/
def blobLookup : List (String × List Nat) → String → Option (List Nat)
  | [], _ => none
  | (k, v) :: rest, key => if k = key then some v else blobLookup rest key

/-- One hex digit, lowercase, as `JSON.stringify` renders control-character
escapes. -/
def hexDigit (n : Nat) : String :=
  if n < 10 then String.singleton (Char.ofNat (48 + n))
  else String.singleton (Char.ofNat (87 + n))

/-- JSON string escaping of one character, as `JSON.stringify` does. -/
def jsonEscapeChar (c : Char) : String :=
  if c = '"' then "\\\""
  else if c = '\\' then "\\\\"
  else if c = '\n' then "\\n"
  else if c = '\r' then "\\r"
  else if c = '\t' then "\\t"
  else if c.toNat = 8 then "\\b"
  else if c.toNat = 12 then "\\f"
  else if c.toNat < 32 then
    "\\u00" ++ hexDigit (c.toNat / 16) ++ hexDigit (c.toNat % 16)
  else String.singleton c

/-- A JSON string literal for `s`. -/
def jsonQuote (s : String) : String :=
  "\"" ++ String.join (s.data.map jsonEscapeChar) ++ "\""

/-- `JSON.stringify` of one index object. -/
def stringifyItem (it : IndexItem) : String :=
  "\x7b\"mimetype\":" ++ jsonQuote it.mimetype ++
    (match it.contents with
     | none => ""
     | some c => ",\"contents\":" ++ jsonQuote c) ++ "\x7d"

/-- `JSON.stringify` of the index array. -/
def stringifyIndex (l : List IndexItem) : String :=
  "[" ++ String.intercalate "," (l.map stringifyItem) ++ "]"

/-- `getEntryFilename` of `src/registry.js` lines 88-92: the blob filename
is the unsigned byte hash rendered in decimal (the hash is already below
`2 ^ 32`, so the JS `>>> 0` is the identity here).  The per-installation
directory prefix is common to all blobs and omitted. -/
def getEntryFilename (e : ClipboardEntry) : String := toString (hashBytes e.bytes)

/-- The blob writes triggered by `Registry.write` (`writeEntryFile`,
`src/registry.js` lines 105-125): for each image entry, the blob file is
created if it does not already exist; an existing file is left untouched. -/
def writeBlobs : List (String × List Nat) → List ClipboardEntry → List (String × List Nat)
  | bs, [] => bs
  | bs, e :: rest =>
    if ¬e.isText ∧ e.isImage then
      match blobLookup bs (getEntryFilename e) with
      | none => writeBlobs ((getEntryFilename e, e.bytes) :: bs) rest
      | some _ => writeBlobs bs rest
    else writeBlobs bs rest

/-- The index object `Registry.write` builds for one entry
(`src/registry.js` lines 13-23): text entries inline their decoded string,
image entries store the blob filename, anything else gets no `contents`
key. -/
def entryToItem (e : ClipboardEntry) : IndexItem :=
  if e.isText then ⟨e.mimetype, some e.getStringValue⟩
  else if e.isImage then ⟨e.mimetype, some (getEntryFilename e)⟩
  else ⟨e.mimetype, none⟩

/-- `Registry.write` of `src/registry.js` lines 12-41, with the
asynchronous index replace and blob writes assumed completed: the index
file now holds the serialized array, and missing image blobs have been
created. -/
def Registry.write (entries : List ClipboardEntry) (d : DiskState) : DiskState :=
  let items := entries.map entryToItem
  { indexExists := true
    indexSize := (utf8Encode (stringifyIndex items)).length
    index := items
    blobs := writeBlobs d.blobs entries }

/-- `ClipboardEntry.fromJSON` of `src/registry.js` lines 162-185.
A falsy (empty) mimetype is replaced by the default; a text-like mimetype
re-encodes the inline contents (`TextEncoder.encode` of an absent value is
the empty string); otherwise the contents are a blob path: an absent path
makes `GLib.file_test` throw (modelled as `.error`), a missing blob file
yields `null` (modelled as `.ok none`), and an existing blob is read
back. -/
def entryFromJSON (blobs : List (String × List Nat)) (it : IndexItem) :
    Except Unit (Option ClipboardEntry) :=
  let mt := if it.mimetype = "" then "text/plain;charset=utf-8" else it.mimetype
  if isTextMime mt then
    .ok (some ⟨mt, utf8Encode (it.contents.getD "")⟩)
  else
    match it.contents with
    | none => .error ()
    | some fn =>
      match blobLookup blobs fn with
      | none => .ok none
      | some bs => .ok (some ⟨mt, bs⟩)

/-- The truncation loop of `Registry.read` (`src/registry.js` lines 71-74):
`while (maxSize && entries.length > maxSize) entries.shift()`. -/
def truncateOldest (maxSize : Nat) : List ClipboardEntry → List ClipboardEntry
  | [] => []
  | a :: t =>
    if maxSize ≠ 0 ∧ (a :: t).length > maxSize then truncateOldest maxSize t
    else a :: t

/-- The disk after `clearCacheFolder` (`src/registry.js` lines 134-147):
every file directly under the cache directory — the index and all blobs —
is deleted. -/
def clearedDisk : DiskState := ⟨false, 0, [], []⟩

/-- `Registry.read` of `src/registry.js` lines 43-86.  A missing index
yields `[]`; an index file larger than `maxCacheMB` megabytes clears the
cache folder and yields `[]`; otherwise each index object is
reconstructed, a single thrown reconstruction (`Promise.all` rejection)
yields `[]`, `null` entries are filtered out, and the result is trimmed
from the front to `maxSize`.  No path raises to the caller. -/
def Registry.read (maxSize maxCacheMB : Nat) (d : DiskState) :
    List ClipboardEntry × DiskState :=
  if ¬d.indexExists then ([], d)
  else if d.indexSize > maxCacheMB * 1024 * 1024 then ([], clearedDisk)
  else
    let parsed := d.index.map (entryFromJSON d.blobs)
    if parsed.any (fun r => match r with | .error _ => true | .ok _ => false) then
      ([], d)
    else
      (truncateOldest maxSize
        (parsed.filterMap (fun r => match r with | .ok o => o | .error _ => none)), d)

/-! ## Sync client state machine (`src/sync.js`, class `MountLinkSync`)

Externally visible actions are collected as effects.  Asynchronous bus
callbacks (name appeared/vanished, proxy construction completing, an
inbound signal, a property-change report) are modelled as explicit
operations; a callback that the platform can only deliver while its
subscription is live is guarded by the corresponding handle field. -/

/-- An externally visible action of the client: a `state` callback
invocation, an outbound `SendClipboard` bus call (with the base64 payload
length), an inbound entry delivered to the `onClipboardReceived` callback,
or a write of the system clipboard by the coordinator. -/
inductive Effect where
  | stateChanged (s : String)
  | busCall (mimetype : String) (dataLen : Nat)
  | deliver (mimetype : String) (bytes : List Nat)
  | setClipboard (mimetype : String) (bytes : List Nat)
deriving DecidableEq

/-- The private fields of `MountLinkSync` (`src/sync.js` lines 56-67).
Handle fields (`proxy`, watcher and subscription ids, the bus connection)
are tracked as presence booleans. -/
structure SyncState where
  proxy : Bool
  enabled : Bool
  state : String
  errorDetail : String
  destroyed : Bool
  nameWatcherId : Bool
  signalSubId : Bool
  propChangedId : Bool
  busConnection : Bool
deriving DecidableEq

/-- The operations and callback completions of `MountLinkSync`. -/
inductive SyncOp where
  | updateSettings (enabled : Bool)
  | send (mimetype : String) (bytes : List Nat)
  | destroy
  | nameAppeared
  | proxyReady (ok : Bool) (cachedState : Option String)
  | nameVanished
  | propChanged (stateProp : Option String) (errProp : Option String)
  | signal (mimetype : String) (bytes : List Nat)
deriving DecidableEq

/-- `#setState` of `src/sync.js` lines 129-133: a no-op when the requested
state equals the current one, otherwise store it and emit it. -/
def setState (σ : SyncState) (s : String) : SyncState × List Effect :=
  if σ.state = s then (σ, [])
  else ({ σ with state := s }, [.stateChanged s])

/-- `#unsubSignals` of `src/sync.js` lines 158-169.  Note the source only
clears `#propChangedId` when the proxy is still present. -/
def unsubSignals (σ : SyncState) : SyncState :=
  { σ with signalSubId := false
           propChangedId := if σ.proxy then false else σ.propChangedId }

/-- `#unwatchBus` of `src/sync.js` lines 148-156. -/
def unwatchBus (σ : SyncState) : SyncState :=
  { unsubSignals σ with nameWatcherId := false, busConnection := false, proxy := false }

/-- `#watchBus` of `src/sync.js` lines 135-146: no-op when already
watching, destroyed, or disabled; otherwise go to `connecting` and start
the name watch. -/
def watchBus (σ : SyncState) : SyncState × List Effect :=
  if σ.nameWatcherId ∨ σ.destroyed ∨ ¬σ.enabled then (σ, [])
  else
    let p := setState σ "connecting"
    ({ p.1 with nameWatcherId := true }, p.2)

/-- The constructor of `MountLinkSync` (`src/sync.js` lines 69-76):
fields start at their initializers (`#state = 'disconnected'`), then the
client either starts watching or records `disabled`. -/
def mkSync (enabled : Bool) : SyncState × List Effect :=
  let σ : SyncState :=
    { proxy := false, enabled := enabled, state := "disconnected"
      errorDetail := "", destroyed := false, nameWatcherId := false
      signalSubId := false, propChangedId := false, busConnection := false }
  if enabled then watchBus σ else setState σ "disabled"

/-- The normalization `v.get_string()[0] || 'connected'` applied to a
peer-reported `State` property (`src/sync.js` lines 211 and 219). -/
def normalizeStateProp (s : String) : String := if s = "" then "connected" else s

/-- One step of `MountLinkSync`: direct methods (`updateSettings`, `send`,
`destroy`) and bus callback completions (`#onNameAppeared`, the
`Gio.DBusProxy.new` completion, `#onNameVanished`, the
`g-properties-changed` handler, `#onSignal`). -/
def syncStep (σ : SyncState) : SyncOp → SyncState × List Effect
  | .updateSettings en =>
    if en = σ.enabled then (σ, [])
    else
      let σ1 := { σ with enabled := en }
      if ¬en then setState (unwatchBus σ1) "disabled"
      else watchBus σ1
  | .send m bs =>
    if ¬σ.proxy ∨ ¬σ.enabled then (σ, [])
    else if ¬(σ.state = "connected" ∨ σ.state = "listening") then (σ, [])
    else if m = "" then (σ, [])
    else if b64Len bs.length > MAX_SYNC_SIZE then (σ, [])
    else (σ, [.busCall m (b64Len bs.length)])
  | .destroy => (unwatchBus { σ with destroyed := true }, [])
  | .nameAppeared =>
    if ¬σ.nameWatcherId then (σ, [])
    else if σ.destroyed then (σ, [])
    else ({ unsubSignals σ with busConnection := true }, [])
  | .proxyReady ok cached =>
    if σ.destroyed ∨ ¬σ.enabled then (σ, [])
    else if ¬ok then setState σ "disconnected"
    else
      let σ1 := { σ with proxy := true }
      if σ1.destroyed ∨ ¬σ1.enabled then ({ σ1 with proxy := false }, [])
      else
        let σ2 := { σ1 with signalSubId := true, propChangedId := true }
        let initial := match cached with
          | some s => normalizeStateProp s
          | none => "connecting"
        setState σ2 initial
  | .nameVanished =>
    if ¬σ.nameWatcherId then (σ, [])
    else if σ.destroyed then (σ, [])
    else
      let σ1 := { unsubSignals σ with busConnection := false, proxy := false }
      if σ1.enabled then setState σ1 "disconnected" else (σ1, [])
  | .propChanged sp ep =>
    if ¬σ.propChangedId then (σ, [])
    else
      let p := match sp with
        | some s => setState σ (normalizeStateProp s)
        | none => (σ, [])
      match ep with
      | some d => ({ p.1 with errorDetail := d }, p.2)
      | none => p
  | .signal m bs =>
    if ¬σ.signalSubId then (σ, [])
    else if σ.destroyed then (σ, [])
    else if b64Len bs.length > MAX_SYNC_SIZE then (σ, [])
    else (σ, [.deliver m bs])

/-- Run a sequence of sync operations, concatenating their effects. -/
def syncRun (σ : SyncState) : List SyncOp → SyncState × List Effect
  | [] => (σ, [])
  | op :: ops =>
    let p := syncStep σ op
    let q := syncRun p.1 ops
    (q.1, p.2 ++ q.2)

/-- The state values emitted to the `onStateChanged` listener, in order. -/
def stateEmits : List Effect → List String
  | [] => []
  | .stateChanged s :: rest => s :: stateEmits rest
  | _ :: rest => stateEmits rest

/-- The outbound bus calls among a list of effects. -/
def busCalls : List Effect → List Effect
  | [] => []
  | .busCall m n :: rest => .busCall m n :: busCalls rest
  | _ :: rest => busCalls rest

/-- The inbound deliveries among a list of effects. -/
def delivers : List Effect → List Effect
  | [] => []
  | .deliver m bs :: rest => .deliver m bs :: delivers rest
  | _ :: rest => delivers rest

/-- The post-`destroy` latch: destroyed with every bus handle released. -/
def Inert (σ : SyncState) : Prop :=
  σ.destroyed = true ∧ σ.proxy = false ∧ σ.signalSubId = false ∧
    σ.propChangedId = false ∧ σ.busConnection = false ∧ σ.nameWatcherId = false

/-- Whether an operation is a direct `updateSettings` call. -/
def isUpdateSettingsOp : SyncOp → Bool
  | .updateSettings _ => true
  | _ => false

/-- Operations that can occur while the peer's bus name is absent: the
name-appeared callback and the proxy-construction completion cannot. -/
def peerAbsentOp : SyncOp → Bool
  | .nameAppeared => false
  | .proxyReady _ _ => false
  | _ => true

/-! ## Coordinator (`src/extension.js`, class `ClipboardIndicator`)

The history list (`clipItemsRadioGroup`, here just its entries, oldest
first), the loop-prevention value `#lastReceivedHash`, and the embedded
sync client.  UI actors, menu ornaments and the debounced cache flush are
outside the claims and not tracked; a refresh is modelled as one atomic
operation carrying the clipboard content it read, so the in-flight
`#refreshInProgress` flag is back to `false` when the operation ends,
exactly as in the `finally` block. -/

/-- The coordinator state. -/
structure CoordState where
  items : List ClipboardEntry
  lastReceivedHash : Option String
  sync : SyncState
  menuReady : Bool
  destroyed : Bool
  refreshInProgress : Bool
  maxRegistryLength : Nat
deriving DecidableEq

/-- Coordinator operations: an inbound peer entry (`_onRemoteClipboard`),
a clipboard-change refresh that read the given content
(`_refreshIndicator` with the result of `#getClipboardContent`), and the
3-second suppression-window timer firing (`_clearRemoteHash`'s timeout
callback). -/
inductive CoordOp where
  | remote (mimetype : String) (bytes : List Nat)
  | refresh (content : Option ClipboardEntry)
  | remoteHashTimeout
deriving DecidableEq

/-- `_removeOldestEntries` of `src/extension.js` lines 423-439:
`while (length > MAX_REGISTRY_LENGTH)` remove index 0. -/
def removeOldestEntries : List ClipboardEntry → Nat → List ClipboardEntry
  | [], _ => []
  | a :: t, maxLen =>
    if (a :: t).length > maxLen then removeOldestEntries t maxLen else a :: t

/-- One coordinator operation.  `remote` follows `_onRemoteClipboard`
(lines 264-288): remember the entry's identity string, write the system
clipboard, then either select a duplicate or append the entry and evict
past the cap; the 3-second timer is (re)armed, leaving the remembered
value in place.  `refresh` follows `_refreshIndicator` (lines 487-522):
guard, compute `isFromRemote` by comparing the content identity with the
remembered value, then either select a duplicate or append and evict —
forwarding through `sync.send` only when `isFromRemote` is false.
`remoteHashTimeout` is the timer callback nulling the remembered value. -/
def coordStep (σ : CoordState) : CoordOp → CoordState × List Effect
  | .remote m bs =>
    if ¬σ.menuReady ∨ σ.destroyed then (σ, [])
    else
      let entry : ClipboardEntry := ⟨m, bs⟩
      let σ1 := { σ with lastReceivedHash := some entry.getStringValue }
      let eff := [Effect.setClipboard m bs]
      if σ.items.any (fun it => it.equals entry) then (σ1, eff)
      else
        ({ σ1 with items := removeOldestEntries (σ1.items ++ [entry]) σ.maxRegistryLength },
         eff)
  | .refresh none => (σ, [])
  | .refresh (some e) =>
    if ¬σ.menuReady ∨ σ.refreshInProgress ∨ σ.destroyed then (σ, [])
    else
      let isFromRemote : Bool := match σ.lastReceivedHash with
        | some h => e.getStringValue == h
        | none => false
      if σ.items.any (fun it => it.equals e) then
        if isFromRemote then (σ, [])
        else
          let p := syncStep σ.sync (.send e.mimetype e.bytes)
          ({ σ with sync := p.1 }, p.2)
      else
        let σ1 := { σ with items := removeOldestEntries (σ.items ++ [e]) σ.maxRegistryLength }
        if isFromRemote then (σ1, [])
        else
          let p := syncStep σ1.sync (.send e.mimetype e.bytes)
          ({ σ1 with sync := p.1 }, p.2)
  | .remoteHashTimeout => ({ σ with lastReceivedHash := none }, [])

/-- Run a sequence of coordinator operations, concatenating effects. -/
def coordRun (σ : CoordState) : List CoordOp → CoordState × List Effect
  | [] => (σ, [])
  | op :: ops =>
    let p := coordStep σ op
    let q := coordRun p.1 ops
    (q.1, p.2 ++ q.2)

/-! ## Concrete states used by witnesses and counterexamples -/

/-- A sync client with a live proxy in the `connected` state. -/
def connectedSync : SyncState :=
  { proxy := true, enabled := true, state := "connected", errorDetail := ""
    destroyed := false, nameWatcherId := true, signalSubId := true
    propChangedId := true, busConnection := true }

/-- A coordinator ready to process events, with an empty history and a
connected sync client. -/
def readyCoord : CoordState :=
  { items := [], lastReceivedHash := none, sync := connectedSync
    menuReady := true, destroyed := false, refreshInProgress := false
    maxRegistryLength := 50 }

/-- A cleanly disabled sync client (as produced by disabling sync). -/
def disabledSync : SyncState :=
  { proxy := false, enabled := false, state := "disabled", errorDetail := ""
    destroyed := false, nameWatcherId := false, signalSubId := false
    propChangedId := false, busConnection := false }

/-- An image entry whose placeholder string collides with a text entry. -/
def imageEntryZero : ClipboardEntry := ⟨"image/png", [0]⟩

/-- A text entry whose decoded text equals `imageEntryZero`'s placeholder
string `[Image 177573]`. -/
def textEntryPlaceholder : ClipboardEntry :=
  ⟨"text/plain", utf8Encode "[Image 177573]"⟩

/-- A one-entry history whose entry is neither text-like nor image-like. -/
def untypedEntries : List ClipboardEntry := [⟨"application/octet-stream", [1, 2, 3]⟩]

/-- A small well-typed history: one text entry and one image entry. -/
def smallEntries : List ClipboardEntry :=
  [⟨"text/plain", utf8Encode "a"⟩, ⟨"image/png", [1, 2]⟩]

/-! ## Helper lemmas -/

/-- `#setState` always leaves the stored state equal to its argument. -/
theorem setState_state (σ : SyncState) (s : String) : (setState σ s).1.state = s := by
  unfold setState
  by_cases h : σ.state = s <;> simp [h]

/-- Each `#setState` call either emits nothing and preserves the stored
state, or emits exactly the new, different state and stores it. -/
theorem setState_emit (σ : SyncState) (s : String) :
    (stateEmits (setState σ s).2 = [] ∧ (setState σ s).1.state = σ.state) ∨
    (stateEmits (setState σ s).2 = [s] ∧ s ≠ σ.state ∧ (setState σ s).1.state = s) := by
  unfold setState
  by_cases h : σ.state = s
  · left; simp [h, stateEmits]
  · rw [if_neg h]
    right
    exact ⟨rfl, fun hh => h hh.symm, rfl⟩

/-- `stateEmits` distributes over concatenation. -/
theorem stateEmits_append (l1 l2 : List Effect) :
    stateEmits (l1 ++ l2) = stateEmits l1 ++ stateEmits l2 := by
  induction l1 with
  | nil => simp [stateEmits]
  | cons a t ih => cases a <;> simp [stateEmits, ih]

/-- `#watchBus` has the same one-emission shape as `#setState`. -/
theorem watchBus_emit (σ : SyncState) :
    (stateEmits (watchBus σ).2 = [] ∧ (watchBus σ).1.state = σ.state) ∨
    (∃ s, stateEmits (watchBus σ).2 = [s] ∧ s ≠ σ.state ∧ (watchBus σ).1.state = s) := by
  unfold watchBus
  by_cases h : σ.nameWatcherId ∨ σ.destroyed ∨ ¬σ.enabled
  · rw [if_pos h]; left; exact ⟨rfl, rfl⟩
  · rw [if_neg h]
    rcases setState_emit σ "connecting" with ⟨h1, h2⟩ | ⟨h1, h2, h3⟩
    · left; exact ⟨h1, h2⟩
    · right; exact ⟨"connecting", h1, h2, h3⟩

/-- Every `MountLinkSync` operation either emits no state value and leaves
the stored state unchanged, or emits exactly one value, different from the
stored state, which becomes the stored state. -/
theorem syncStep_emit (σ : SyncState) (op : SyncOp) :
    (stateEmits (syncStep σ op).2 = [] ∧ (syncStep σ op).1.state = σ.state) ∨
    (∃ s, stateEmits (syncStep σ op).2 = [s] ∧ s ≠ σ.state ∧
      (syncStep σ op).1.state = s) := by
  cases op with
  | updateSettings en =>
    simp only [syncStep]
    by_cases h : en = σ.enabled
    · rw [if_pos h]; left; exact ⟨rfl, rfl⟩
    · rw [if_neg h]
      by_cases hen : en
      · rw [if_neg (by simp [hen])]
        exact watchBus_emit _
      · rw [if_pos (by simp [hen])]
        rcases setState_emit (unwatchBus { σ with enabled := en }) "disabled" with
          ⟨h1, h2⟩ | ⟨h1, h2, h3⟩
        · left; exact ⟨h1, h2⟩
        · right; exact ⟨"disabled", h1, h2, h3⟩
  | send m bs =>
    simp only [syncStep]
    split
    · left; exact ⟨rfl, rfl⟩
    · split
      · left; exact ⟨rfl, rfl⟩
      · split
        · left; exact ⟨rfl, rfl⟩
        · split
          · left; exact ⟨rfl, rfl⟩
          · left; exact ⟨rfl, rfl⟩
  | destroy => left; exact ⟨rfl, rfl⟩
  | nameAppeared =>
    simp only [syncStep]
    split
    · left; exact ⟨rfl, rfl⟩
    · split
      · left; exact ⟨rfl, rfl⟩
      · left; exact ⟨rfl, rfl⟩
  | proxyReady ok cached =>
    simp only [syncStep]
    split
    · left; exact ⟨rfl, rfl⟩
    · split
      · rcases setState_emit σ "disconnected" with ⟨h1, h2⟩ | ⟨h1, h2, h3⟩
        · left; exact ⟨h1, h2⟩
        · right; exact ⟨"disconnected", h1, h2, h3⟩
      · split <;>
        · rcases setState_emit _ _ with ⟨h1, h2⟩ | ⟨h1, h2, h3⟩
          · left; exact ⟨h1, h2⟩
          · right; exact ⟨_, h1, h2, h3⟩
  | nameVanished =>
    simp only [syncStep]
    split
    · left; exact ⟨rfl, rfl⟩
    · split
      · left; exact ⟨rfl, rfl⟩
      · split
        · rcases setState_emit _ "disconnected" with ⟨h1, h2⟩ | ⟨h1, h2, h3⟩
          · left; exact ⟨h1, h2⟩
          · right; exact ⟨"disconnected", h1, h2, h3⟩
        · left; exact ⟨rfl, rfl⟩
  | propChanged sp ep =>
    simp only [syncStep]
    split
    · left; exact ⟨rfl, rfl⟩
    · cases sp with
      | none =>
        cases ep with
        | none => left; exact ⟨rfl, rfl⟩
        | some d => left; exact ⟨rfl, rfl⟩
      | some s =>
        cases ep with
        | none =>
          rcases setState_emit σ (normalizeStateProp s) with ⟨h1, h2⟩ | ⟨h1, h2, h3⟩
          · left; exact ⟨h1, h2⟩
          · right; exact ⟨_, h1, h2, h3⟩
        | some d =>
          rcases setState_emit σ (normalizeStateProp s) with ⟨h1, h2⟩ | ⟨h1, h2, h3⟩
          · left; exact ⟨h1, h2⟩
          · right; exact ⟨_, h1, h2, h3⟩
  | signal m bs =>
    simp only [syncStep]
    split
    · left; exact ⟨rfl, rfl⟩
    · split
      · left; exact ⟨rfl, rfl⟩
      · split
        · left; exact ⟨rfl, rfl⟩
        · left; exact ⟨rfl, rfl⟩

/-- Over any run, the sequence of emitted state values, with the initial
stored state prepended, contains no two adjacent equal values. -/
theorem syncRun_chain (ops : List SyncOp) (σ : SyncState) :
    List.Chain' (fun a b => a ≠ b) (σ.state :: stateEmits (syncRun σ ops).2) := by
  induction ops generalizing σ with
  | nil => simp [syncRun, stateEmits]
  | cons op ops ih =>
    show List.Chain' _ (σ.state ::
      stateEmits ((syncStep σ op).2 ++ (syncRun (syncStep σ op).1 ops).2))
    rw [stateEmits_append]
    rcases syncStep_emit σ op with ⟨h1, h2⟩ | ⟨s, h1, h2, h3⟩
    · rw [h1, List.nil_append, ← h2]
      exact ih _
    · rw [h1]
      refine List.Chain'.cons (fun hh => h2 hh.symm) ?_
      rw [← h3]
      exact ih _

/-- C10: the internal state setter is a no-op when the requested state
equals the current one; a repeated `updateSettings` with the unchanged
enabled flag is a complete no-op; a peer property report normalizing to
the current state emits nothing; and over any run the listener never
observes two consecutive identical state values. -/
theorem C10_no_duplicate_state_events :
    (∀ σ : SyncState, ∀ s, σ.state = s → setState σ s = (σ, [])) ∧
    (∀ σ : SyncState, ∀ b, σ.enabled = b → syncStep σ (.updateSettings b) = (σ, [])) ∧
    (∀ σ : SyncState, ∀ s ep, normalizeStateProp s = σ.state →
      stateEmits (syncStep σ (.propChanged (some s) ep)).2 = []) ∧
    (∀ σ : SyncState, ∀ ops, List.Chain' (fun a b => a ≠ b)
      (σ.state :: stateEmits (syncRun σ ops).2)) := by
  refine ⟨?_, ?_, ?_, fun σ ops => syncRun_chain ops σ⟩
  · intro σ s h
    unfold setState
    rw [if_pos h]
  · intro σ b h
    simp only [syncStep]
    rw [if_pos h.symm]
  · intro σ s ep h
    simp only [syncStep]
    by_cases hp : σ.propChangedId
    · rw [if_neg (by simp [hp])]
      have hs : setState σ (normalizeStateProp s) = (σ, []) := by
        unfold setState
        rw [if_pos h.symm]
      cases ep <;> simp [hs, stateEmits]
    · rw [if_pos (by simp [hp])]
      rfl

/-- Witness for C10 at concrete inputs. -/
theorem C10_witness :
    setState connectedSync "connected" = (connectedSync, []) ∧
    syncStep connectedSync (.updateSettings true) = (connectedSync, []) ∧
    stateEmits (syncStep connectedSync (.propChanged (some "connected") none)).2 = [] :=
  ⟨C10_no_duplicate_state_events.1 connectedSync "connected" rfl,
   C10_no_duplicate_state_events.2.1 connectedSync true rfl,
   C10_no_duplicate_state_events.2.2.1 connectedSync "connected" none rfl⟩

/-- Invariant used for C6: while the peer has never produced a proxy, the
client is not in the `connected` state and holds no property-change
subscription. -/
def NoPeerInv (σ : SyncState) : Prop :=
  σ.state ≠ "connected" ∧ σ.propChangedId = false

/-- Any operation that can occur while the peer's bus name is absent
preserves `NoPeerInv`. -/
theorem noPeerInv_step (σ : SyncState) (op : SyncOp)
    (hop : peerAbsentOp op = true) (h : NoPeerInv σ) :
    NoPeerInv (syncStep σ op).1 := by
  obtain ⟨hst, hpc⟩ := h
  cases op with
  | updateSettings en =>
    simp only [syncStep]
    by_cases he : en = σ.enabled
    · rw [if_pos he]; exact ⟨hst, hpc⟩
    · rw [if_neg he]
      by_cases hen : en
      · rw [if_neg (by simp [hen])]
        unfold watchBus
        split
        · exact ⟨hst, hpc⟩
        · constructor
          · show (setState { σ with enabled := en } "connecting").1.state ≠ "connected"
            rw [setState_state]; decide
          · show (setState { σ with enabled := en } "connecting").1.propChangedId = false
            unfold setState
            split <;> exact hpc
      · rw [if_pos (by simp [hen])]
        constructor
        · rw [setState_state]; decide
        · show (setState _ "disabled").1.propChangedId = false
          unfold setState unwatchBus unsubSignals
          split <;> (split <;> simp [hpc])
  | send m bs =>
    simp only [syncStep]
    split
    · exact ⟨hst, hpc⟩
    · split
      · exact ⟨hst, hpc⟩
      · split
        · exact ⟨hst, hpc⟩
        · split
          · exact ⟨hst, hpc⟩
          · exact ⟨hst, hpc⟩
  | destroy =>
    simp only [syncStep]
    unfold unwatchBus unsubSignals
    exact ⟨hst, by split <;> simp [hpc]⟩
  | nameAppeared => simp [peerAbsentOp] at hop
  | proxyReady ok cached => simp [peerAbsentOp] at hop
  | nameVanished =>
    simp only [syncStep]
    split
    · exact ⟨hst, hpc⟩
    · split
      · exact ⟨hst, hpc⟩
      · split
        · constructor
          · rw [setState_state]; decide
          · show (setState _ "disconnected").1.propChangedId = false
            unfold setState unsubSignals
            split <;> (split <;> simp [hpc])
        · exact ⟨hst, by unfold unsubSignals; split <;> simp [hpc]⟩
  | propChanged sp ep =>
    simp only [syncStep]
    rw [if_pos (by simp [hpc])]
    exact ⟨hst, hpc⟩
  | signal m bs =>
    simp only [syncStep]
    split
    · exact ⟨hst, hpc⟩
    · split
      · exact ⟨hst, hpc⟩
      · split
        · exact ⟨hst, hpc⟩
        · exact ⟨hst, hpc⟩

/-- `NoPeerInv` is preserved along any run of peer-absent operations. -/
theorem noPeerInv_run (ops : List SyncOp) (σ : SyncState)
    (hops : ∀ op ∈ ops, peerAbsentOp op = true) (h : NoPeerInv σ) :
    NoPeerInv (syncRun σ ops).1 := by
  induction ops generalizing σ with
  | nil => exact h
  | cons op ops ih =>
    show NoPeerInv (syncRun (syncStep σ op).1 ops).1
    exact ih _ (fun o ho => hops o (List.mem_cons_of_mem _ ho))
      (noPeerInv_step σ op (hops op (List.mem_cons_self _ _)) h)

/-- C6: enabling sync from a (cleanly) disabled client moves the state to
`connecting`, and as long as the peer's name never appears (no
name-appeared callback and no proxy completion) the state never becomes
`connected`; and from any state, the peer's name vanishing while the
client is enabled, watching and not destroyed forces `disconnected`. -/
theorem C6_connection_state_machine :
    (∀ σ : SyncState, σ.state = "disabled" → σ.enabled = false →
      σ.destroyed = false → σ.nameWatcherId = false → σ.propChangedId = false →
      (syncStep σ (.updateSettings true)).1.state = "connecting" ∧
      ∀ ops, (∀ op ∈ ops, peerAbsentOp op = true) →
        (syncRun (syncStep σ (.updateSettings true)).1 ops).1.state ≠ "connected") ∧
    (∀ σ : SyncState, σ.enabled = true → σ.destroyed = false →
      σ.nameWatcherId = true →
      (syncStep σ .nameVanished).1.state = "disconnected") := by
  constructor
  · intro σ hst hen hde hnw hpc
    have key : (syncStep σ (.updateSettings true)).1.state = "connecting" ∧
        (syncStep σ (.updateSettings true)).1.propChangedId = false := by
      simp only [syncStep]
      rw [if_neg (by rw [hen]; decide)]
      rw [if_neg (by decide)]
      unfold watchBus
      rw [if_neg (by simp [hnw, hde])]
      constructor
      · show (setState { σ with enabled := true } "connecting").1.state = "connecting"
        exact setState_state _ _
      · show (setState { σ with enabled := true } "connecting").1.propChangedId = false
        unfold setState
        split <;> simp [hpc]
    refine ⟨key.1, fun ops hops => ?_⟩
    have hinv : NoPeerInv (syncStep σ (.updateSettings true)).1 :=
      ⟨by rw [key.1]; decide, key.2⟩
    exact (noPeerInv_run ops _ hops hinv).1
  · intro σ hen hde hnw
    simp only [syncStep]
    rw [if_neg (by simp [hnw])]
    rw [if_neg (by simp [hde])]
    have hc : (unsubSignals σ).enabled = true := hen
    rw [if_pos hc]
    exact setState_state _ _

/-- Witness for C6 at concrete inputs. -/
theorem C6_witness :
    (syncStep disabledSync (.updateSettings true)).1.state = "connecting" ∧
    (syncRun (syncStep disabledSync (.updateSettings true)).1
      [.send "text/plain" [104], .nameVanished]).1.state ≠ "connected" ∧
    (syncStep connectedSync .nameVanished).1.state = "disconnected" := by
  have h1 := C6_connection_state_machine.1 disabledSync rfl rfl rfl rfl rfl
  have h2 := C6_connection_state_machine.2 connectedSync rfl rfl rfl
  exact ⟨h1.1, h1.2 [.send "text/plain" [104], .nameVanished] (by decide), h2⟩

/-- Counterexample to C8 as stated: construct the client enabled (it
reaches `connecting`), destroy it, then call `updateSettings` disabling
sync.  The source's `updateSettings` never checks the destroyed flag, so
the call still emits a `disabled` state-changed event — a visible effect
after `destroy`. -/
theorem C8_counterexample :
    stateEmits (syncStep (syncStep (mkSync true).1 .destroy).1
      (.updateSettings false)).2 = ["disabled"] := by decide

/-- C8 amended: `destroy` emits nothing and latches the inert state; from
an inert client every operation other than `updateSettings` is a complete
no-op, and even `updateSettings` performs no bus call and delivers no
inbound entry (it can still emit a state-changed event).  The hypothesis
of the first part (a property-change subscription implies a live proxy)
holds in every reachable state. -/
theorem C8_destroy_latch :
    (∀ σ : SyncState, (σ.propChangedId = true → σ.proxy = true) →
      (syncStep σ .destroy).2 = [] ∧ Inert (syncStep σ .destroy).1) ∧
    (∀ σ : SyncState, ∀ op, Inert σ →
      Inert (syncStep σ op).1 ∧
      busCalls (syncStep σ op).2 = [] ∧
      delivers (syncStep σ op).2 = [] ∧
      (isUpdateSettingsOp op = false → syncStep σ op = (σ, []))) := by
  constructor
  · intro σ hprop
    refine ⟨rfl, ?_⟩
    unfold Inert
    simp only [syncStep]
    unfold unwatchBus unsubSignals
    by_cases hp : σ.proxy
    · simp [hp]
    · cases hpc : σ.propChangedId
      · simp [hp, hpc]
      · exact absurd (hprop hpc) hp
  · intro σ op h
    obtain ⟨p, en0, st, ed, de, nw, ss, pc, bc⟩ := σ
    obtain ⟨hd, hp, hss, hpc, hbc, hnw⟩ := h
    simp only at hd hp hss hpc hbc hnw
    subst hd hp hss hpc hbc hnw
    cases op with
    | updateSettings en =>
      refine ⟨?_, ?_, ?_, fun hcon => by simp [isUpdateSettingsOp] at hcon⟩ <;>
      · simp only [syncStep]
        by_cases he : en = en0
        · rw [if_pos he]
          simp [Inert, busCalls, delivers]
        · rw [if_neg he]
          by_cases hen : en
          · rw [if_neg (by simp [hen])]
            unfold watchBus
            rw [if_pos (by right; left; rfl)]
            simp [Inert, busCalls, delivers]
          · rw [if_pos (by simp [hen])]
            unfold setState unwatchBus unsubSignals
            split_ifs <;> simp_all [Inert, busCalls, delivers]
    | send m bs =>
      have hstep : syncStep ⟨false, en0, st, ed, true, false, false, false, false⟩
          (.send m bs) = (⟨false, en0, st, ed, true, false, false, false, false⟩, []) := by
        simp only [syncStep]
        rw [if_pos (by left; simp)]
      rw [hstep]
      exact ⟨⟨rfl, rfl, rfl, rfl, rfl, rfl⟩, rfl, rfl, fun _ => rfl⟩
    | destroy =>
      have hstep : syncStep ⟨false, en0, st, ed, true, false, false, false, false⟩
          .destroy = (⟨false, en0, st, ed, true, false, false, false, false⟩, []) := by
        simp only [syncStep]
        unfold unwatchBus unsubSignals
        simp
      rw [hstep]
      exact ⟨⟨rfl, rfl, rfl, rfl, rfl, rfl⟩, rfl, rfl, fun _ => rfl⟩
    | nameAppeared =>
      have hstep : syncStep ⟨false, en0, st, ed, true, false, false, false, false⟩
          .nameAppeared = (⟨false, en0, st, ed, true, false, false, false, false⟩, []) := by
        simp only [syncStep]
        rw [if_pos (by simp)]
      rw [hstep]
      exact ⟨⟨rfl, rfl, rfl, rfl, rfl, rfl⟩, rfl, rfl, fun _ => rfl⟩
    | proxyReady ok cached =>
      have hstep : syncStep ⟨false, en0, st, ed, true, false, false, false, false⟩
          (.proxyReady ok cached) =
          (⟨false, en0, st, ed, true, false, false, false, false⟩, []) := by
        simp only [syncStep]
        rw [if_pos (by simp)]
      rw [hstep]
      exact ⟨⟨rfl, rfl, rfl, rfl, rfl, rfl⟩, rfl, rfl, fun _ => rfl⟩
    | nameVanished =>
      have hstep : syncStep ⟨false, en0, st, ed, true, false, false, false, false⟩
          .nameVanished = (⟨false, en0, st, ed, true, false, false, false, false⟩, []) := by
        simp only [syncStep]
        rw [if_pos (by simp)]
      rw [hstep]
      exact ⟨⟨rfl, rfl, rfl, rfl, rfl, rfl⟩, rfl, rfl, fun _ => rfl⟩
    | propChanged sp ep =>
      have hstep : syncStep ⟨false, en0, st, ed, true, false, false, false, false⟩
          (.propChanged sp ep) =
          (⟨false, en0, st, ed, true, false, false, false, false⟩, []) := by
        simp only [syncStep]
        rw [if_pos (by simp)]
      rw [hstep]
      exact ⟨⟨rfl, rfl, rfl, rfl, rfl, rfl⟩, rfl, rfl, fun _ => rfl⟩
    | signal m bs =>
      have hstep : syncStep ⟨false, en0, st, ed, true, false, false, false, false⟩
          (.signal m bs) = (⟨false, en0, st, ed, true, false, false, false, false⟩, []) := by
        simp only [syncStep]
        rw [if_pos (by simp)]
      rw [hstep]
      exact ⟨⟨rfl, rfl, rfl, rfl, rfl, rfl⟩, rfl, rfl, fun _ => rfl⟩

/-- The state a destroyed, previously connected client is left in. -/
def inertSync : SyncState :=
  { proxy := false, enabled := true, state := "connected", errorDetail := ""
    destroyed := true, nameWatcherId := false, signalSubId := false
    propChangedId := false, busConnection := false }

/-- Witness for C8 at concrete inputs: destroying the connected client
latches it, and a subsequent `send` is a complete no-op. -/
theorem C8_witness :
    ((syncStep connectedSync .destroy).2 = [] ∧ Inert (syncStep connectedSync .destroy).1) ∧
    syncStep inertSync (.send "text/plain" [104]) = (inertSync, []) := by
  refine ⟨C8_destroy_latch.1 connectedSync (fun _ => rfl), ?_⟩
  have h := C8_destroy_latch.2 inertSync (.send "text/plain" [104])
    ⟨rfl, rfl, rfl, rfl, rfl, rfl⟩
  exact h.2.2.2 rfl

/-- C4: a `send` whose base64-encoded payload exceeds `MAX_SYNC_SIZE`
performs no bus call and leaves the whole client state unchanged (as does
every other branch of `send`: it never mutates state). -/
theorem C4_oversized_send (σ : SyncState) (m : String) (bs : List Nat)
    (h : b64Len bs.length > MAX_SYNC_SIZE) :
    syncStep σ (.send m bs) = (σ, []) := by
  simp only [syncStep]
  split_ifs <;> rfl

/-- Witness for C4: a 15 MB raw buffer encodes past the ceiling, and the
send from a connected client with a live proxy does nothing. -/
theorem C4_witness :
    b64Len (List.replicate (15 * 1024 * 1024) 0).length > MAX_SYNC_SIZE ∧
    syncStep connectedSync (.send "image/png" (List.replicate (15 * 1024 * 1024) 0)) =
      (connectedSync, []) := by
  have h : b64Len (List.replicate (15 * 1024 * 1024) 0).length > MAX_SYNC_SIZE := by
    rw [List.length_replicate]
    decide
  exact ⟨h, C4_oversized_send connectedSync "image/png" _ h⟩

/-- C5: when the index file exists and its size exceeds `maxCacheMB`
megabytes, `read` returns the empty list and the cleared cache directory;
`Registry.read` is a total function, so no error reaches the caller. -/
theorem C5_oversized_index (maxSize maxCacheMB : Nat) (d : DiskState)
    (hex : d.indexExists = true) (hsz : d.indexSize > maxCacheMB * 1024 * 1024) :
    Registry.read maxSize maxCacheMB d = ([], clearedDisk) := by
  unfold Registry.read
  rw [if_neg (by simp [hex])]
  rw [if_pos hsz]

/-- Witness for C5: an 11 MiB index file against a 10 MB ceiling. -/
theorem C5_witness :
    (⟨true, 11534336, [], []⟩ : DiskState).indexExists = true ∧
    (⟨true, 11534336, [], []⟩ : DiskState).indexSize > 10 * 1024 * 1024 ∧
    Registry.read 50 10 ⟨true, 11534336, [], []⟩ = ([], clearedDisk) :=
  ⟨rfl, by decide, C5_oversized_index 50 10 _ rfl (by decide)⟩

/-- Counterexample to C3 as stated: the claim says a text-like entry and
an image-like entry are never equal, but a text entry whose decoded text
is exactly the image placeholder string `[Image 177573]` compares equal
to the image entry with bytes `[0]` (whose hash is `177573`), because
`equals` falls back to string comparison whenever the two entries are not
both images. -/
theorem C3_counterexample :
    textEntryPlaceholder.isText = true ∧ textEntryPlaceholder.isImage = false ∧
    imageEntryZero.isImage = true ∧
    textEntryPlaceholder.equals imageEntryZero = true ∧
    imageEntryZero.equals textEntryPlaceholder = true := by decide

/-- C3 amended: `equals` is symmetric, and holds iff either both entries
are image-like with equal hash and equal byte length, or the two entries
are not both image-like and their string values (decoded text, or the
image placeholder string) coincide — so a text-like entry can equal an
image-like entry exactly when its text equals the image's placeholder
string. -/
theorem C3_equals_characterization (a b : ClipboardEntry) :
    a.equals b = b.equals a ∧
    (a.equals b = true ↔
      ((a.isImage = true ∧ b.isImage = true ∧
          hashBytes a.bytes = hashBytes b.bytes ∧ a.bytes.length = b.bytes.length) ∨
       (¬(a.isImage = true ∧ b.isImage = true) ∧
          a.getStringValue = b.getStringValue))) := by
  unfold ClipboardEntry.equals
  by_cases ha : a.isImage <;> by_cases hb : b.isImage <;>
    refine ⟨by rw [Bool.eq_iff_iff]; simp [ha, hb, beq_iff_eq]; tauto, ?_⟩ <;>
    · simp [ha, hb, beq_iff_eq]
      try tauto

/-- Fields of the coordinator state after an inbound peer entry is
processed: the guards pass, the identity string of the entry is
remembered, and the sync client and flags are untouched. -/
theorem coordStep_remote_fields (σ : CoordState) (m : String) (bs : List Nat)
    (hm : σ.menuReady = true) (hd : σ.destroyed = false) :
    (coordStep σ (.remote m bs)).1.menuReady = true ∧
    (coordStep σ (.remote m bs)).1.destroyed = false ∧
    (coordStep σ (.remote m bs)).1.refreshInProgress = σ.refreshInProgress ∧
    (coordStep σ (.remote m bs)).1.sync = σ.sync ∧
    (coordStep σ (.remote m bs)).1.lastReceivedHash =
      some (ClipboardEntry.mk m bs).getStringValue := by
  simp only [coordStep]
  rw [if_neg (by simp [hm, hd])]
  split
  · exact ⟨hm, hd, rfl, rfl, rfl⟩
  · exact ⟨hm, hd, rfl, rfl, rfl⟩

/-- A `send` through the sync client, with a live proxy, sync enabled, an
active-send state, a nonempty mimetype and a payload within the size
ceiling, performs exactly one bus call and changes nothing. -/
theorem syncStep_send_active (σs : SyncState) (m : String) (bs : List Nat)
    (hp : σs.proxy = true) (he : σs.enabled = true)
    (ha : σs.state = "connected" ∨ σs.state = "listening")
    (hmt : m ≠ "") (hsz : ¬b64Len bs.length > MAX_SYNC_SIZE) :
    syncStep σs (.send m bs) = (σs, [.busCall m (b64Len bs.length)]) := by
  simp only [syncStep]
  rw [if_neg (by simp [hp, he])]
  rw [if_neg (by simp [ha])]
  rw [if_neg hmt]
  rw [if_neg hsz]

/-- C1: after an inbound peer entry is applied (its identity string is
remembered), a clipboard refresh inside the suppression window reading
content whose identity string equals the remembered one triggers no bus
call, while a refresh reading content with a different identity string
triggers exactly one bus call — given the sync client has a live proxy,
is enabled and is in an active-send state, and the content is sendable
(nonempty mimetype, payload within the size ceiling). -/
theorem C1_loop_prevention (σ : CoordState) (m : String) (bs : List Nat) (e : ClipboardEntry)
    (hm : σ.menuReady = true) (hd : σ.destroyed = false) (hr : σ.refreshInProgress = false)
    (hp : σ.sync.proxy = true) (he : σ.sync.enabled = true)
    (ha : σ.sync.state = "connected" ∨ σ.sync.state = "listening")
    (hmt : e.mimetype ≠ "") (hsz : ¬b64Len e.bytes.length > MAX_SYNC_SIZE) :
    (e.getStringValue = (ClipboardEntry.mk m bs).getStringValue →
      busCalls (coordStep (coordStep σ (.remote m bs)).1 (.refresh (some e))).2 = []) ∧
    (e.getStringValue ≠ (ClipboardEntry.mk m bs).getStringValue →
      busCalls (coordStep (coordStep σ (.remote m bs)).1 (.refresh (some e))).2 =
        [.busCall e.mimetype (b64Len e.bytes.length)]) := by
  obtain ⟨f1, f2, f3, f4, f5⟩ := coordStep_remote_fields σ m bs hm hd
  have hr2 := f3.trans hr
  revert f1 f2 f4 f5 hr2
  generalize (coordStep σ (.remote m bs)).1 = σ1
  intro f1 f2 f4 f5 hr2
  constructor
  · intro hid
    have hbeq : (e.getStringValue == (ClipboardEntry.mk m bs).getStringValue) = true := by
      rw [beq_iff_eq]; exact hid
    simp only [coordStep]
    rw [if_neg (by simp [f1, f2, hr2])]
    rw [f5]
    simp only [hbeq]
    split
    · rfl
    · rfl
  · intro hid
    have hbeq : (e.getStringValue == (ClipboardEntry.mk m bs).getStringValue) = false := by
      rw [beq_eq_false_iff_ne]; exact hid
    simp only [coordStep]
    rw [if_neg (by simp [f1, f2, hr2])]
    rw [f5]
    simp only [hbeq]
    have hsend := syncStep_send_active σ1.sync e.mimetype e.bytes
      (by rw [f4]; exact hp) (by rw [f4]; exact he) (by rw [f4]; exact ha) hmt hsz
    split
    · rw [if_neg (by simp)]
      rw [hsend]
      rfl
    · rw [if_neg (by simp)]
      rw [hsend]
      rfl

/-- Witness for C1: the spec's own scenario — inbound `("text/plain",
"hello")`, then a refresh reading `"hello world"` (different identity:
one bus call) and a refresh reading `"hello"` (matching identity: no bus
call). -/
theorem C1_witness :
    busCalls (coordStep (coordStep readyCoord (.remote "text/plain" (utf8Encode "hello"))).1
      (.refresh (some ⟨"text/plain;charset=utf-8", utf8Encode "hello world"⟩))).2 =
      [.busCall "text/plain;charset=utf-8" (b64Len (utf8Encode "hello world").length)] ∧
    busCalls (coordStep (coordStep readyCoord (.remote "text/plain" (utf8Encode "hello"))).1
      (.refresh (some ⟨"text/plain", utf8Encode "hello"⟩))).2 = [] := by
  have h1 := C1_loop_prevention readyCoord "text/plain" (utf8Encode "hello")
    ⟨"text/plain;charset=utf-8", utf8Encode "hello world"⟩ rfl rfl rfl rfl rfl
    (Or.inl rfl) (by decide) (by decide)
  have h2 := C1_loop_prevention readyCoord "text/plain" (utf8Encode "hello")
    ⟨"text/plain", utf8Encode "hello"⟩ rfl rfl rfl rfl rfl
    (Or.inl rfl) (by decide) (by decide)
  exact ⟨h1.2 (by decide), h2.1 (by decide)⟩

/-- C9 amended: the suppression value is a single remembered identity
(each inbound entry overwrites it), and it is cleared only by the
fixed-delay timer — a clipboard-change refresh never modifies it, so
within the delay window the previous inbound identity keeps suppressing
forwarding even after genuinely-new content has been processed. -/
theorem C9_suppression_value (σ : CoordState) (m : String) (bs : List Nat)
    (c : Option ClipboardEntry)
    (hm : σ.menuReady = true) (hd : σ.destroyed = false) :
    (coordStep σ (.remote m bs)).1.lastReceivedHash =
      some (ClipboardEntry.mk m bs).getStringValue ∧
    (coordStep σ .remoteHashTimeout).1.lastReceivedHash = none ∧
    (coordStep σ (.refresh c)).1.lastReceivedHash = σ.lastReceivedHash := by
  refine ⟨(coordStep_remote_fields σ m bs hm hd).2.2.2.2, rfl, ?_⟩
  cases c with
  | none => rfl
  | some e =>
    simp only [coordStep]
    split
    · rfl
    · split
      · split
        · rfl
        · rfl
      · split
        · rfl
        · rfl

/-- Counterexample to C9 as stated: inbound `"hello"` is remembered; a
genuinely-new local change `"hello world"` is processed and forwarded
(first conjunct: one bus call); yet the next refresh reading `"hello"`
is still suppressed (second conjunct: no bus call), because
`_refreshIndicator` never clears `#lastReceivedHash` — only the 3-second
timer does (third conjunct: the remembered value is still `"hello"`).
The claim's "cleared immediately upon the next genuinely-new clipboard
content" would require the last refresh to produce a bus call. -/
theorem C9_counterexample :
    busCalls (coordStep (coordStep readyCoord (.remote "text/plain" (utf8Encode "hello"))).1
      (.refresh (some ⟨"text/plain;charset=utf-8", utf8Encode "hello world"⟩))).2 ≠ [] ∧
    busCalls (coordStep (coordStep (coordStep readyCoord
        (.remote "text/plain" (utf8Encode "hello"))).1
      (.refresh (some ⟨"text/plain;charset=utf-8", utf8Encode "hello world"⟩))).1
      (.refresh (some ⟨"text/plain;charset=utf-8", utf8Encode "hello"⟩))).2 = [] ∧
    (coordStep (coordStep (coordStep readyCoord
        (.remote "text/plain" (utf8Encode "hello"))).1
      (.refresh (some ⟨"text/plain;charset=utf-8", utf8Encode "hello world"⟩))).1
      (.refresh (some ⟨"text/plain;charset=utf-8", utf8Encode "hello"⟩))).1.lastReceivedHash =
      some "hello" := by decide

/-- Witness for C9 at concrete inputs. -/
theorem C9_witness :
    (coordStep readyCoord (.remote "text/plain" (utf8Encode "hello"))).1.lastReceivedHash =
      some (ClipboardEntry.mk "text/plain" (utf8Encode "hello")).getStringValue ∧
    (coordStep readyCoord .remoteHashTimeout).1.lastReceivedHash = none ∧
    (coordStep readyCoord (.refresh none)).1.lastReceivedHash =
      readyCoord.lastReceivedHash :=
  C9_suppression_value readyCoord "text/plain" (utf8Encode "hello") none rfl rfl

/-- The eviction loop drops exactly the oldest overflow from the front. -/
theorem removeOldestEntries_eq_drop (l : List ClipboardEntry) (maxLen : Nat) :
    removeOldestEntries l maxLen = l.drop (l.length - maxLen) := by
  induction l with
  | nil => simp [removeOldestEntries]
  | cons a t ih =>
    rw [removeOldestEntries]
    by_cases h : (a :: t).length > maxLen
    · rw [if_pos h, ih]
      have hlen : (a :: t).length - maxLen = (t.length - maxLen) + 1 := by
        simp only [List.length_cons] at h ⊢
        omega
      rw [hlen, List.drop_succ_cons]
    · rw [if_neg h]
      have hlen : (a :: t).length - maxLen = 0 := by
        simp only [List.length_cons] at h ⊢
        omega
      rw [hlen, List.drop_zero]

/-- The eviction loop always leaves at most `maxLen` entries behind when
it runs on a list that exceeds the cap, and leaves a shorter list
unchanged; in both cases the result length is at most the starting
length capped by `maxLen` growth. -/
theorem removeOldestEntries_length (l : List ClipboardEntry) (maxLen : Nat) :
    (removeOldestEntries l maxLen).length = l.length - (l.length - maxLen) := by
  rw [removeOldestEntries_eq_drop, List.length_drop]

/-- `coordStep` never changes the configured maximum. -/
theorem coordStep_max (σ : CoordState) (op : CoordOp) :
    (coordStep σ op).1.maxRegistryLength = σ.maxRegistryLength := by
  cases op with
  | remote m bs =>
    simp only [coordStep]
    split
    · rfl
    · split
      · rfl
      · rfl
  | refresh c =>
    cases c with
    | none => rfl
    | some e =>
      simp only [coordStep]
      split
      · rfl
      · split
        · split
          · rfl
          · rfl
        · split
          · rfl
          · rfl
  | remoteHashTimeout => rfl

/-- One coordinator operation preserves the capacity bound. -/
theorem coordStep_capacity (σ : CoordState) (op : CoordOp)
    (h : σ.items.length ≤ σ.maxRegistryLength) :
    (coordStep σ op).1.items.length ≤ σ.maxRegistryLength := by
  cases op with
  | remote m bs =>
    simp only [coordStep]
    split
    · exact h
    · split
      · exact h
      · show (removeOldestEntries _ σ.maxRegistryLength).length ≤ σ.maxRegistryLength
        rw [removeOldestEntries_length]
        omega
  | refresh c =>
    cases c with
    | none => exact h
    | some e =>
      simp only [coordStep]
      split
      · exact h
      · split
        · split
          · exact h
          · exact h
        · split
          · show (removeOldestEntries _ σ.maxRegistryLength).length ≤ σ.maxRegistryLength
            rw [removeOldestEntries_length]
            omega
          · show (removeOldestEntries _ σ.maxRegistryLength).length ≤ σ.maxRegistryLength
            rw [removeOldestEntries_length]
            omega
  | remoteHashTimeout => exact h

/-- C2: the capacity bound is preserved by every single coordinator
operation and along every run of operations; the eviction loop removes
exactly the oldest entries (a front `drop`); and an inbound insertion of
a non-duplicate entry appends it and drops the overflow from index 0
within the same operation. -/
theorem C2_capacity_invariant :
    (∀ σ : CoordState, ∀ op, σ.items.length ≤ σ.maxRegistryLength →
      (coordStep σ op).1.items.length ≤ (coordStep σ op).1.maxRegistryLength) ∧
    (∀ σ : CoordState, ∀ ops, σ.items.length ≤ σ.maxRegistryLength →
      (coordRun σ ops).1.items.length ≤ (coordRun σ ops).1.maxRegistryLength) ∧
    (∀ l : List ClipboardEntry, ∀ maxLen,
      removeOldestEntries l maxLen = l.drop (l.length - maxLen)) ∧
    (∀ σ : CoordState, ∀ m bs, σ.menuReady = true → σ.destroyed = false →
      σ.items.any (fun it => it.equals ⟨m, bs⟩) = false →
      (coordStep σ (.remote m bs)).1.items =
        (σ.items ++ [ClipboardEntry.mk m bs]).drop
          ((σ.items.length + 1) - σ.maxRegistryLength)) := by
  have hrun : ∀ (ops : List CoordOp) (σ : CoordState),
      σ.items.length ≤ σ.maxRegistryLength →
      (coordRun σ ops).1.items.length ≤ (coordRun σ ops).1.maxRegistryLength := by
    intro ops
    induction ops with
    | nil => intro σ h; exact h
    | cons op ops ih =>
      intro σ h
      show (coordRun (coordStep σ op).1 ops).1.items.length ≤
        (coordRun (coordStep σ op).1 ops).1.maxRegistryLength
      exact ih _ (by rw [coordStep_max]; exact coordStep_capacity σ op h)
  refine ⟨fun σ op h => ?_, fun σ ops h => hrun ops σ h,
    removeOldestEntries_eq_drop, fun σ m bs hm hd hdup => ?_⟩
  · rw [coordStep_max]
    exact coordStep_capacity σ op h
  · simp only [coordStep]
    rw [if_neg (by simp [hm, hd])]
    rw [if_neg (by simp only [hdup]; exact Bool.false_ne_true)]
    show removeOldestEntries (σ.items ++ [ClipboardEntry.mk m bs]) σ.maxRegistryLength = _
    rw [removeOldestEntries_eq_drop]
    congr 1
    simp

/-- Witness for C2 at concrete inputs: inserting into a full history of
capacity 1 evicts the oldest entry in the same step. -/
theorem C2_witness :
    ((coordStep { readyCoord with
        items := [⟨"text/plain", utf8Encode "old"⟩], maxRegistryLength := 1 }
      (.remote "text/plain" (utf8Encode "new"))).1.items.length ≤
      (coordStep { readyCoord with
        items := [⟨"text/plain", utf8Encode "old"⟩], maxRegistryLength := 1 }
      (.remote "text/plain" (utf8Encode "new"))).1.maxRegistryLength) ∧
    (coordStep { readyCoord with
        items := [⟨"text/plain", utf8Encode "old"⟩], maxRegistryLength := 1 }
      (.remote "text/plain" (utf8Encode "new"))).1.items =
      [⟨"text/plain", utf8Encode "new"⟩] := by
  constructor
  · exact C2_capacity_invariant.1 _ _ (by decide)
  · have h := C2_capacity_invariant.2.2.2 { readyCoord with
      items := [⟨"text/plain", utf8Encode "old"⟩], maxRegistryLength := 1 }
      "text/plain" (utf8Encode "new") rfl rfl (by decide)
    rw [h]
    decide

/-- With a nonzero `maxSize`, the read-side truncation loop drops exactly
the oldest overflow from the front. -/
theorem truncateOldest_eq_drop (maxSize : Nat) (hmax : maxSize ≠ 0)
    (l : List ClipboardEntry) :
    truncateOldest maxSize l = l.drop (l.length - maxSize) := by
  induction l with
  | nil => simp [truncateOldest]
  | cons a t ih =>
    rw [truncateOldest]
    by_cases h : (a :: t).length > maxSize
    · rw [if_pos ⟨hmax, h⟩, ih]
      have hlen : (a :: t).length - maxSize = (t.length - maxSize) + 1 := by
        simp only [List.length_cons] at h ⊢
        omega
      rw [hlen, List.drop_succ_cons]
    · rw [if_neg (fun hc => h hc.2)]
      have hlen : (a :: t).length - maxSize = 0 := by
        simp only [List.length_cons] at h ⊢
        omega
      rw [hlen, List.drop_zero]

/-- The blob-write pass never changes the contents of a filename that is
already present (`writeEntryFile` skips existing files). -/
theorem blobLookup_writeBlobs_mono (l : List ClipboardEntry)
    (bs : List (String × List Nat)) (k : String) (v : List Nat)
    (h : blobLookup bs k = some v) :
    blobLookup (writeBlobs bs l) k = some v := by
  induction l generalizing bs with
  | nil => exact h
  | cons e rest ih =>
    rw [writeBlobs]
    split
    · split
      · rename_i hnone
        apply ih
        rw [blobLookup]
        split
        · rename_i hk
          rw [hk] at hnone
          rw [h] at hnone
          cases hnone
        · exact h
      · exact ih bs h
    · exact ih bs h

/-- After the blob-write pass, every image entry of the list whose
filename neither collides with a differing pre-existing blob nor with a
differing entry of the list finds its own bytes under its filename. -/
theorem blobLookup_writeBlobs_self (l : List ClipboardEntry)
    (bs : List (String × List Nat))
    (hcompat : ∀ e ∈ l, e.isImage = true →
      blobLookup bs (getEntryFilename e) = none ∨
      blobLookup bs (getEntryFilename e) = some e.bytes)
    (hpair : ∀ e1 ∈ l, ∀ e2 ∈ l, e1.isImage = true → e2.isImage = true →
      getEntryFilename e1 = getEntryFilename e2 → e1.bytes = e2.bytes)
    (e : ClipboardEntry) (he : e ∈ l) (himg : e.isImage = true)
    (hnt : e.isText = false) :
    blobLookup (writeBlobs bs l) (getEntryFilename e) = some e.bytes := by
  induction l generalizing bs with
  | nil => cases he
  | cons a rest ih =>
    rw [writeBlobs]
    rcases List.mem_cons.mp he with rfl | hrest
    · rw [if_pos ⟨by simp [hnt], himg⟩]
      rcases hcompat e (List.mem_cons_self _ _) himg with hcn | hcs
      · rw [hcn]
        apply blobLookup_writeBlobs_mono
        simp [blobLookup]
      · rw [hcs]
        exact blobLookup_writeBlobs_mono rest bs _ _ hcs
    · have hcompatRest : ∀ x ∈ rest, x.isImage = true →
          blobLookup bs (getEntryFilename x) = none ∨
          blobLookup bs (getEntryFilename x) = some x.bytes :=
        fun x hx hxi => hcompat x (List.mem_cons_of_mem _ hx) hxi
      have hpairRest : ∀ x ∈ rest, ∀ y ∈ rest, x.isImage = true → y.isImage = true →
          getEntryFilename x = getEntryFilename y → x.bytes = y.bytes :=
        fun x hx y hy => hpair x (List.mem_cons_of_mem _ hx) y (List.mem_cons_of_mem _ hy)
      by_cases ha : ¬a.isText = true ∧ a.isImage = true
      · rw [if_pos ha]
        rcases hcn : blobLookup bs (getEntryFilename a) with _ | v
        · refine ih _ ?_ hpairRest hrest
          intro x hx hxi
          by_cases hk : getEntryFilename a = getEntryFilename x
          · right
            simp only [blobLookup]
            rw [if_pos hk]
            rw [hpair a (List.mem_cons_self _ _) x (List.mem_cons_of_mem _ hx)
              ha.2 hxi hk]
          · simp only [blobLookup]
            rw [if_neg hk]
            exact hcompatRest x hx hxi
        · exact ih _ hcompatRest hpairRest hrest
      · rw [if_neg ha]
        exact ih _ hcompatRest hpairRest hrest

/-- Reconstruction through the persisted index: a text-like entry with
UTF-8-round-trip-valid bytes (and not image-like), or an image-like
entry (not text-like) whose blob survives collision-free, parses back
from its own index object to itself. -/
theorem entryFromJSON_entryToItem (entries : List ClipboardEntry) (d : DiskState)
    (hclass : ∀ e ∈ entries,
      (e.isText = true ∧ e.isImage = false ∧ utf8Encode (utf8Decode e.bytes) = e.bytes) ∨
      (e.isImage = true ∧ e.isText = false))
    (hpre : ∀ e ∈ entries, e.isImage = true →
      blobLookup d.blobs (getEntryFilename e) = none ∨
      blobLookup d.blobs (getEntryFilename e) = some e.bytes)
    (hpair : ∀ e1 ∈ entries, ∀ e2 ∈ entries, e1.isImage = true → e2.isImage = true →
      getEntryFilename e1 = getEntryFilename e2 → e1.bytes = e2.bytes)
    (e : ClipboardEntry) (he : e ∈ entries) :
    entryFromJSON (writeBlobs d.blobs entries) (entryToItem e) = .ok (some e) := by
  rcases hclass e he with ⟨ht, hi, hrt⟩ | ⟨hi, ht⟩
  · have ht2 : isTextMime e.mimetype = true := ht
    have hne : e.mimetype ≠ "" := by
      intro hc
      rw [hc] at ht2
      exact absurd ht2 (by decide)
    unfold entryToItem
    rw [if_pos ht]
    unfold entryFromJSON
    simp only [IndexItem.mimetype, IndexItem.contents]
    rw [if_neg hne]
    rw [if_pos ht2]
    simp only [Option.getD]
    unfold ClipboardEntry.getStringValue
    rw [if_neg (by rw [hi]; exact Bool.false_ne_true)]
    rw [hrt]
  · have hi2 : strStartsWith e.mimetype "image/" = true := hi
    have ht2 : isTextMime e.mimetype = false := ht
    have hne : e.mimetype ≠ "" := by
      intro hc
      rw [hc] at hi2
      exact absurd hi2 (by decide)
    unfold entryToItem
    rw [if_neg (by rw [ht]; exact Bool.false_ne_true)]
    rw [if_pos hi]
    unfold entryFromJSON
    simp only [IndexItem.mimetype, IndexItem.contents]
    rw [if_neg hne]
    rw [if_neg (by rw [ht2]; exact Bool.false_ne_true)]
    rw [blobLookup_writeBlobs_self entries d.blobs hpre hpair e he hi ht]

/-- A fully successful parse contains no error. -/
theorem parse_ok_no_error (l : List ClipboardEntry) :
    ((l.map (fun e => (Except.ok (some e) : Except Unit (Option ClipboardEntry)))).any
      (fun r => match r with | .error _ => true | .ok _ => false)) = false := by
  induction l with
  | nil => rfl
  | cons a t ih => simp [ih]

/-- Extracting the payloads of a fully successful parse recovers the
original list. -/
theorem parse_ok_extract (l : List ClipboardEntry) :
    ((l.map (fun e => (Except.ok (some e) : Except Unit (Option ClipboardEntry)))).filterMap
      (fun r => match r with | .ok o => o | .error _ => none)) = l := by
  induction l with
  | nil => rfl
  | cons a t ih => simp [List.filterMap_cons, ih]

/-- `Registry.read` on a disk whose index parses back to exactly `l`
returns `l` trimmed from the front. -/
theorem registry_read_of_parse (maxSize maxCacheMB : Nat) (l : List ClipboardEntry)
    (d : DiskState) (hex : d.indexExists = true)
    (hsz : ¬d.indexSize > maxCacheMB * 1024 * 1024)
    (hparse : d.index.map (entryFromJSON d.blobs) = l.map (fun e => .ok (some e))) :
    (Registry.read maxSize maxCacheMB d).1 = truncateOldest maxSize l := by
  unfold Registry.read
  rw [if_neg (by simp [hex])]
  rw [if_neg hsz]
  simp only [hparse]
  rw [parse_ok_no_error]
  simp only [Bool.false_eq_true, if_false]
  rw [parse_ok_extract]

/-- C7 amended: writing a history of entries that are each either
text-like with UTF-8-round-trip-valid bytes or image-like with
collision-free blob filenames, then reading it back with a nonzero
`maxSize` and an index within the byte ceiling, yields the same entries
(equal mimetypes and contents) in the same order, truncated from the
oldest end exactly when the count exceeds `maxSize`. -/
theorem C7_write_read_roundtrip (entries : List ClipboardEntry) (d : DiskState)
    (maxSize maxCacheMB : Nat) (hmax : maxSize ≠ 0)
    (hclass : ∀ e ∈ entries,
      (e.isText = true ∧ e.isImage = false ∧ utf8Encode (utf8Decode e.bytes) = e.bytes) ∨
      (e.isImage = true ∧ e.isText = false))
    (hpre : ∀ e ∈ entries, e.isImage = true →
      blobLookup d.blobs (getEntryFilename e) = none ∨
      blobLookup d.blobs (getEntryFilename e) = some e.bytes)
    (hpair : ∀ e1 ∈ entries, ∀ e2 ∈ entries, e1.isImage = true → e2.isImage = true →
      getEntryFilename e1 = getEntryFilename e2 → e1.bytes = e2.bytes)
    (hsize : ¬(Registry.write entries d).indexSize > maxCacheMB * 1024 * 1024) :
    (Registry.read maxSize maxCacheMB (Registry.write entries d)).1 =
      entries.drop (entries.length - maxSize) := by
  rw [registry_read_of_parse maxSize maxCacheMB entries (Registry.write entries d)
    rfl hsize ?_]
  · exact truncateOldest_eq_drop maxSize hmax entries
  · show (entries.map entryToItem).map (entryFromJSON (writeBlobs d.blobs entries)) = _
    rw [List.map_map]
    exact List.map_congr_left
      (fun e he => entryFromJSON_entryToItem entries d hclass hpre hpair e he)

/-- Counterexample to C7 as stated: a single entry that is neither
text-like nor image-like (for example `application/octet-stream`) is
written with no `contents` key; on read the missing blob path makes the
reconstruction throw, the `Promise.all` rejection is caught, and `read`
returns the empty list instead of the one written entry. -/
theorem C7_counterexample :
    untypedEntries.length = 1 ∧
    (Registry.read 50 10 (Registry.write untypedEntries clearedDisk)).1 = [] := by
  decide

/-- Witness for C7: a two-entry history (one text, one image) written to
an empty disk reads back unchanged. -/
theorem C7_witness :
    (Registry.read 5 10 (Registry.write smallEntries clearedDisk)).1 =
      smallEntries.drop (smallEntries.length - 5) := by
  exact C7_write_read_roundtrip smallEntries clearedDisk 5 10 (by decide)
    (by decide) (by decide) (by decide) (by decide)
